import Mathlib

/-!
Verification of the pagination / chunking middleware in src/LastFMHandler.ts.

The embedding models the numeric planning logic exactly as written in the
source (JS numbers restricted to integers, since every claim is about integer
limits), the zod limit validation (limit must be at least 1), and the fetch
layer as an oracle returning either a parsed page or an error. The upstream
API is modelled by apiFetch: page p with limit m returns the slice of the
dataset from index (p-1)*m of length at most m, together with the usual
pagination metadata.
-/

/-- Upstream per-request cap, src/LastFMHandler.ts line 38. -/
def API_MAX_LIMIT : Nat := 1000

/-- Size of one parallel batch of tracks, src/LastFMHandler.ts line 39. -/
def CHUNK_SIZE : Nat := 5000

/-- Pagination metadata of one response: the numeric fields of the zod
BaseResponseSchema in src/types.ts (total, totalPages, page, perPage). -/
structure Attr where
  total : Nat
  totalPages : Nat
  page : Nat
  perPage : Nat
  deriving DecidableEq

/-- One parsed page: the track array plus its pagination metadata. -/
structure PageResponse (τ : Type) where
  track : List τ
  attr : Attr
  deriving DecidableEq

/-- Errors a handler call can surface: a zod schema rejection (the options
schema requires limit to be at least 1), a TypeError from reading a property
of undefined, or a failure of the underlying HTTP fetch or response parse. -/
inductive JsError (ε : Type) where
  | zod : JsError ε
  | typeError : JsError ε
  | fetch : ε → JsError ε
  deriving DecidableEq

/-- A fetch oracle: given the page and limit query parameters it returns the
parsed PageResponse or fails. This models the private fetch method together
with the response schema parse (lines 394-415). -/
def Fetcher (ε τ : Type) : Type := Nat → Int → Except ε (PageResponse τ)

/-- Lines 426-438: goodPassedLimit replaces a JS-falsy limit (0 or undefined)
by API_MAX_LIMIT; finalLimit additionally caps it at API_MAX_LIMIT. The same
two lines are inlined at the top of getAllUserRecentTracks (lines 148-150). -/
def getGoodPassedLimit (limit : Option Int) : Int × Int :=
  let goodPassedLimit : Int :=
    match limit with
    | none => (API_MAX_LIMIT : Int)
    | some l => if l = 0 then (API_MAX_LIMIT : Int) else l
  let finalLimit : Int :=
    if goodPassedLimit > (API_MAX_LIMIT : Int) then (API_MAX_LIMIT : Int) else goodPassedLimit
  (goodPassedLimit, finalLimit)

/-- Lines 270-274: number of calls issued for chunk i, namely the ceiling of
(the tracks still needed in this chunk, capped at CHUNK_SIZE) / API_MAX_LIMIT. -/
def numberOfApiCallWithinChunk (neededTracks i : Nat) : Nat :=
  ((if neededTracks - i * CHUNK_SIZE > CHUNK_SIZE then CHUNK_SIZE
    else neededTracks - i * CHUNK_SIZE) + (API_MAX_LIMIT - 1)) / API_MAX_LIMIT

/-- Line 282: the page requested by call j of chunk i; the +2 accounts for the
already-fetched page 1 and for 1-based page numbers. -/
def pageOfCall (i j : Nat) : Nat := i * CHUNK_SIZE / API_MAX_LIMIT + (j + 2)

/-- Line 261: chunks = Math.ceil(neededTracks / CHUNK_SIZE). -/
def chunksFor (neededTracks : Nat) : Nat := (neededTracks + (CHUNK_SIZE - 1)) / CHUNK_SIZE

/-- The per-chunk batches of (page, limit) request parameters for the extra
calls beyond page 1 (lines 269-287): chunk i issues
numberOfApiCallWithinChunk calls, call j at page pageOfCall i j, each with
limit API_MAX_LIMIT. -/
def batchPlan (neededTracks : Nat) : List (List (Nat × Int)) :=
  (List.range (chunksFor neededTracks)).map fun i =>
    (List.range (numberOfApiCallWithinChunk neededTracks i)).map fun j =>
      (pageOfCall i j, (API_MAX_LIMIT : Int))

/-- Promise.all over one batch (lines 276-286): every fetch must succeed and
the results are collected in issue order (ascending page); the first failure
rejects the whole batch. -/
def runBatch (F : Fetcher ε τ) : List (Nat × Int) → Except ε (List (PageResponse τ))
  | [] => .ok []
  | c :: rest =>
    match F c.1 c.2 with
    | .error e => .error e
    | .ok page =>
      match runBatch F rest with
      | .error e => .error e
      | .ok tail => .ok (page :: tail)

/-- The sequential chunk loop (lines 269-291): batches run one after another,
each appending the track arrays of its pages, in page order, to the result. -/
def runBatches (F : Fetcher ε τ) : List (List (Nat × Int)) → Except ε (List τ)
  | [] => .ok []
  | b :: rest =>
    match runBatch F b with
    | .error e => .error e
    | .ok pages =>
      match runBatches F rest with
      | .error e => .error e
      | .ok tail => .ok (pages.flatMap (fun page => page.track) ++ tail)

/-- The shared fetch-all pipeline of getAllUserRecentTracks (137-205),
getUserRecentTracks (220-295) and getUserTopTracks (307-368), whose bodies are
copy-paste identical up to the track schema (the source TODO notes they use
the same logic): compute the limits, zod-validate the options (limit at least
1), fetch page 1 with finalLimit, then, when finalLimit < goodPassedLimit, run
the chunked batches and append their tracks, finally slice to
goodPassedLimit. -/
def chunkedFetchAll (F : Fetcher ε τ) (limit : Option Int) : Except (JsError ε) (List τ) :=
  let gl := getGoodPassedLimit limit
  if gl.2 < 1 then .error .zod
  else
    match F 1 gl.2 with
    | .error e => .error (.fetch e)
    | .ok response =>
      if gl.2 < gl.1 then
        match runBatches F (batchPlan (gl.1 - gl.2).toNat) with
        | .error e => .error (.fetch e)
        | .ok extra => .ok ((response.track ++ extra).take gl.1.toNat)
      else .ok (response.track.take gl.1.toNat)

/-- Lines 137-205. -/
def getAllUserRecentTracks (F : Fetcher ε τ) (limit : Option Int) :
    Except (JsError ε) (List τ) :=
  chunkedFetchAll F limit

/-- Lines 220-295. -/
def getUserRecentTracks (F : Fetcher ε τ) (limit : Option Int) :
    Except (JsError ε) (List τ) :=
  chunkedFetchAll F limit

/-- Lines 307-368. -/
def getUserTopTracks (F : Fetcher ε τ) (limit : Option Int) :
    Except (JsError ε) (List τ) :=
  chunkedFetchAll F limit

/-- The ordered list of (page, limit) parameters of every HTTP request one
top-level chunked fetch-all call issues: nothing when zod rejects the limit,
otherwise page 1 with finalLimit followed by the chunk batches in order. -/
def issuedCalls (limit : Option Int) : List (Nat × Int) :=
  let gl := getGoodPassedLimit limit
  if gl.2 < 1 then []
  else
    (1, gl.2) ::
      (if gl.2 < gl.1 then (batchPlan (gl.1 - gl.2).toNat).flatten else [])

/-- The page the upstream paginated API answers for a fixed dataset: page p
with limit m holds the items from index (p-1)*m, at most m of them, plus
metadata with the true total and the page count ceil(total/m). -/
def apiPage (data : List τ) (page : Nat) (lim : Int) : PageResponse τ :=
  { track := (data.drop ((page - 1) * lim.toNat)).take lim.toNat
    attr :=
      { total := data.length
        totalPages := (data.length + lim.toNat - 1) / lim.toNat
        page := page
        perPage := lim.toNat } }

/-- Model of the upstream API as a fetch oracle that always succeeds and
answers from the fixed dataset. -/
def apiFetch (data : List τ) : Fetcher Unit τ := fun page lim => .ok (apiPage data page lim)

/-- Minimal model of a parsed recent track: identity fields plus the optional
nowplaying marker carried by the optional "@attr" object (none when "@attr"
is absent from the response). -/
structure RecentTrack where
  name : String
  url : String
  nowplaying : Option Bool
  deriving DecidableEq

/-- The single (page, limit) request of the currently-playing probe: the base
options page 1 with limit overridden to 1 (lines 376-379). -/
def currentlyPlayingCall : Nat × Int := (1, 1)

/-- Lines 375-386: fetch page 1 limit 1; the returned value is track[0] when
its "@attr".nowplaying is truthy and null otherwise. When the track list is
empty, track[0] is undefined and the property read on line 385 throws a
TypeError. -/
def getCurrentlyPlayingTrack (F : Fetcher ε RecentTrack) :
    Except (JsError ε) (Option RecentTrack) :=
  match F currentlyPlayingCall.1 currentlyPlayingCall.2 with
  | .error e => .error (.fetch e)
  | .ok response =>
    match response.track with
    | [] => .error .typeError
    | t :: _ => .ok (if t.nowplaying.getD false then some t else none)

/-- Condition of the while loop in getUserLovedTracks (lines 106-109):
currentPage < totalPages and, when a JS-truthy limit was passed, the tracks
collected so far are still below that limit. -/
def lovedLoopCond (limit : Option Int) (currentPage totalPages : Nat) (tracks : List τ) : Bool :=
  decide (currentPage < totalPages) &&
    (match limit with
     | none => true
     | some l => if l = 0 then true else decide ((tracks.length : Int) < l))

/-- The while loop of getUserLovedTracks (lines 106-119), fuel-indexed because
the source loop never updates currentPage or totalPages: each iteration
fetches page currentPage + 1 with finalLimit and appends its tracks. A none
result means the loop has not exited within the given number of iterations. -/
def getUserLovedTracksLoop (F : Fetcher ε τ) (limit : Option Int) (finalLimit : Int)
    (currentPage totalPages : Nat) : List τ → Nat → Option (Except (JsError ε) (List τ))
  | _, 0 => none
  | tracks, fuel + 1 =>
    if lovedLoopCond limit currentPage totalPages tracks then
      match F (currentPage + 1) finalLimit with
      | .error e => some (.error (.fetch e))
      | .ok nextPage =>
        getUserLovedTracksLoop F limit finalLimit currentPage totalPages
          (tracks ++ nextPage.track) fuel
    else some (.ok tracks)

/-- Lines 89-122: finalLimit caps a truthy limit at baseOptions.limit (1000);
the first request passes limit ?? baseOptions.limit (only null or undefined
defaulted, no cap); zod rejects a first-call limit below 1 before any network
call; then the while loop runs from the first response metadata. -/
def getUserLovedTracksRun (F : Fetcher ε τ) (limit : Option Int) (fuel : Nat) :
    Option (Except (JsError ε) (List τ)) :=
  let finalLimit : Int :=
    match limit with
    | none => (API_MAX_LIMIT : Int)
    | some l =>
      if l = 0 then (API_MAX_LIMIT : Int)
      else if l ≤ (API_MAX_LIMIT : Int) then l else (API_MAX_LIMIT : Int)
  let firstCallLimit : Int := (limit.getD (API_MAX_LIMIT : Int))
  if firstCallLimit < 1 then some (.error .zod)
  else
    match F 1 firstCallLimit with
    | .error e => some (.error (.fetch e))
    | .ok response =>
      getUserLovedTracksLoop F limit finalLimit response.attr.page
        response.attr.totalPages response.track fuel

/-- The (page, limit) of the first request issued by getUserLovedTracks
(lines 96-101): the caller limit with only null/undefined defaulted to
baseOptions.limit, not capped at API_MAX_LIMIT; none when zod rejects a limit
below 1 before any network call. -/
def lovedFirstCall (limit : Option Int) : Option (Nat × Int) :=
  let l : Int := limit.getD (API_MAX_LIMIT : Int)
  if l < 1 then none else some (1, l)

/-! ### Helper lemmas about the request plan -/

/-- Shifting List.range by s gives List.range' s. -/
theorem map_add_range (n : Nat) : ∀ s : Nat,
    (List.range n).map (fun j => j + s) = List.range' s n := by
  induction n with
  | zero => intro s; rfl
  | succ n ih =>
    intro s
    rw [List.range_succ_eq_map, List.range'_succ]
    simp only [List.map_cons, List.map_map, Nat.zero_add]
    have hf : ((fun j => j + s) ∘ Nat.succ) = (fun j => j + (s + 1)) := by
      funext j; simp [Function.comp]; omega
    rw [hf, ih]

/-- Flatten commutes with mapping a function inside each block. -/
theorem flatten_map_map (g : α → β) : ∀ L : List (List α),
    (L.map (List.map g)).flatten = L.flatten.map g := by
  intro L
  induction L with
  | nil => rfl
  | cons b L ih => simp only [List.map_cons, List.flatten_cons, List.map_append, ih]


/-- The chunk batches, flattened, request exactly the consecutive pages
2, 3, ..., 1 + ceil(neededTracks / API_MAX_LIMIT), each with limit
API_MAX_LIMIT: no page repeats, none is skipped. -/
theorem batchPlan_flatten : ∀ neededTracks : Nat, 1 ≤ neededTracks →
    (batchPlan neededTracks).flatten =
      (List.range' 2 ((neededTracks + (API_MAX_LIMIT - 1)) / API_MAX_LIMIT)).map
        (fun p => (p, (API_MAX_LIMIT : Int))) := by
  intro needed
  induction needed using Nat.strong_induction_on with
  | _ needed ih =>
    intro h1
    have hCS : CHUNK_SIZE = 5000 := rfl
    have hAM : API_MAX_LIMIT = 1000 := rfl
    by_cases hle : needed ≤ 5000
    · -- a single chunk covers everything
      have hchunks : chunksFor needed = 1 := by
        simp only [chunksFor, hCS]; omega
      have hif : ¬ (needed - 0 * CHUNK_SIZE > CHUNK_SIZE) := by
        simp only [hCS]; omega
      have hcalls : numberOfApiCallWithinChunk needed 0 =
          (needed + (API_MAX_LIMIT - 1)) / API_MAX_LIMIT := by
        simp only [numberOfApiCallWithinChunk, Nat.zero_mul, Nat.sub_zero]
        rw [if_neg (show ¬ needed > CHUNK_SIZE from by simp only [hCS]; omega)]
      rw [batchPlan, hchunks]
      have hr1 : List.range 1 = [0] := rfl
      rw [hr1]
      simp only [List.map_cons, List.map_nil, List.flatten_cons, List.flatten_nil,
        List.append_nil, hcalls]
      rw [← map_add_range]
      simp only [List.map_map]
      refine List.map_congr_left (fun j _ => ?_)
      simp [Function.comp, pageOfCall]
    · -- peel off the first (full) chunk and recurse on needed - CHUNK_SIZE
      have hk : chunksFor needed = chunksFor (needed - CHUNK_SIZE) + 1 := by
        simp only [chunksFor, hCS]; omega
      have hm : (needed + (API_MAX_LIMIT - 1)) / API_MAX_LIMIT =
          5 + ((needed - CHUNK_SIZE) + (API_MAX_LIMIT - 1)) / API_MAX_LIMIT := by
        simp only [hAM, hCS]; omega
      rw [batchPlan, hk, List.range_succ_eq_map]
      simp only [List.map_cons, List.map_map, List.flatten_cons]
      have hif0 : numberOfApiCallWithinChunk needed 0 = 5 := by
        have hgt : needed - 0 * CHUNK_SIZE > CHUNK_SIZE := by simp only [hCS]; omega
        simp only [numberOfApiCallWithinChunk, if_pos hgt]
        decide
      have hblock0 : (List.range (numberOfApiCallWithinChunk needed 0)).map
          (fun j => (pageOfCall 0 j, (API_MAX_LIMIT : Int))) =
          (List.range' 2 5).map (fun p => (p, (API_MAX_LIMIT : Int))) := by
        rw [hif0, ← map_add_range 5 2]
        simp only [List.map_map]
        refine List.map_congr_left (fun j _ => ?_)
        simp [Function.comp, pageOfCall]
      have hshift : (List.range (chunksFor (needed - CHUNK_SIZE))).map
          ((fun i => (List.range (numberOfApiCallWithinChunk needed i)).map
            (fun j => (pageOfCall i j, (API_MAX_LIMIT : Int)))) ∘ Nat.succ) =
          (batchPlan (needed - CHUNK_SIZE)).map
            (List.map (fun c => (c.1 + 5, c.2))) := by
        rw [batchPlan, List.map_map]
        refine List.map_congr_left (fun i _ => ?_)
        simp only [Function.comp]
        have hcnt : numberOfApiCallWithinChunk needed (Nat.succ i) =
            numberOfApiCallWithinChunk (needed - CHUNK_SIZE) i := by
          have hsub : needed - (Nat.succ i) * CHUNK_SIZE =
              (needed - CHUNK_SIZE) - i * CHUNK_SIZE := by
            simp only [hCS]; omega
          simp only [numberOfApiCallWithinChunk, hsub]
        rw [hcnt, List.map_map]
        refine List.map_congr_left (fun j _ => ?_)
        simp only [Function.comp]
        have hpg : pageOfCall (Nat.succ i) j = pageOfCall i j + 5 := by
          simp only [pageOfCall, hCS, hAM]; omega
        simp [hpg]
      rw [hblock0, hshift, flatten_map_map,
        ih (needed - CHUNK_SIZE) (by simp only [hCS]; omega) (by simp only [hCS]; omega),
        hm]
      have hright : ((List.range' 2 (((needed - CHUNK_SIZE) + (API_MAX_LIMIT - 1)) /
          API_MAX_LIMIT)).map (fun p => (p, (API_MAX_LIMIT : Int)))).map
            (fun c => (c.1 + 5, c.2)) =
          (List.range' 7 (((needed - CHUNK_SIZE) + (API_MAX_LIMIT - 1)) /
            API_MAX_LIMIT)).map (fun p => (p, (API_MAX_LIMIT : Int))) := by
        rw [← map_add_range _ 2, ← map_add_range _ 7]
        simp only [List.map_map]
        refine List.map_congr_left (fun j _ => ?_)
        simp [Function.comp]
      rw [hright, ← List.map_append]
      have hr : List.range' 2 5 ++ List.range' 7
          (((needed - CHUNK_SIZE) + (API_MAX_LIMIT - 1)) / API_MAX_LIMIT) =
          List.range' 2 (5 + ((needed - CHUNK_SIZE) + (API_MAX_LIMIT - 1)) /
            API_MAX_LIMIT) := by
        have happ := List.range'_append 2 5
          (((needed - CHUNK_SIZE) + (API_MAX_LIMIT - 1)) / API_MAX_LIMIT) 1
        simp only [Nat.mul_one, Nat.one_mul] at happ
        rw [show (2 + 5 = 7) from rfl] at happ
        rw [happ, Nat.add_comm]
      rw [hr]

/-- Concatenating the slices of consecutive pages k, k+1, ..., k+n-1, each of
API_MAX_LIMIT items, gives one contiguous slice of n * API_MAX_LIMIT items
starting at offset (k-1) * API_MAX_LIMIT. -/
theorem flatMap_page_slices (data : List τ) : ∀ n k : Nat, 1 ≤ k →
    (List.range' k n).flatMap
      (fun p => (data.drop ((p - 1) * API_MAX_LIMIT)).take API_MAX_LIMIT) =
      (data.drop ((k - 1) * API_MAX_LIMIT)).take (n * API_MAX_LIMIT) := by
  intro n
  induction n with
  | zero => intro k _; simp
  | succ n ih =>
    intro k hk
    rw [List.range'_succ, List.flatMap_cons, ih (k + 1) (by omega)]
    have hAM : API_MAX_LIMIT = 1000 := rfl
    have h1 : (n + 1) * API_MAX_LIMIT = API_MAX_LIMIT + n * API_MAX_LIMIT := by ring
    rw [h1, List.take_add, List.drop_drop]
    have h2 : (k - 1) * API_MAX_LIMIT + API_MAX_LIMIT = (k + 1 - 1) * API_MAX_LIMIT := by
      simp only [hAM]; omega
    rw [h2]

/-- A batch over a fetcher that always succeeds collects the pages in issue
order. -/
theorem runBatch_ok (F : Fetcher ε τ) (G : Nat → Int → PageResponse τ)
    (hF : ∀ p l, F p l = .ok (G p l)) : ∀ b : List (Nat × Int),
    runBatch F b = .ok (b.map (fun c => G c.1 c.2)) := by
  intro b
  induction b with
  | nil => rfl
  | cons c rest ih => simp [runBatch, hF, ih]

/-- Binding a flatMap over a mapped list composes the two functions. -/
theorem flatMap_map (f : α → β) (g : β → List γ) : ∀ l : List α,
    (l.map f).flatMap g = l.flatMap (fun a => g (f a)) := by
  intro l
  induction l with
  | nil => rfl
  | cons a l ih => simp only [List.map_cons, List.flatMap_cons, ih]

/-- The sequential chunk loop over a fetcher that always succeeds concatenates
the track arrays of every call of every batch, in order. -/
theorem runBatches_ok (F : Fetcher ε τ) (G : Nat → Int → PageResponse τ)
    (hF : ∀ p l, F p l = .ok (G p l)) : ∀ bs : List (List (Nat × Int)),
    runBatches F bs = .ok (bs.flatten.flatMap (fun c => (G c.1 c.2).track)) := by
  intro bs
  induction bs with
  | nil => rfl
  | cons b rest ih =>
    simp [runBatches, runBatch_ok F G hF, ih, List.flatMap_append, flatMap_map]

/-- When a batch succeeds, every fetch inside it succeeded: Promise.all never
swallows a rejection. -/
theorem runBatch_isOk (F : Fetcher ε τ) : ∀ (b : List (Nat × Int))
    (r : List (PageResponse τ)), runBatch F b = .ok r →
    ∀ c ∈ b, (F c.1 c.2).isOk = true := by
  intro b
  induction b with
  | nil => intro r _ c hc; cases hc
  | cons c0 rest ih =>
    intro r hr c hc
    cases hF0 : F c0.1 c0.2 with
    | error e => simp [runBatch, hF0] at hr
    | ok page =>
      cases hRest : runBatch F rest with
      | error e => simp [runBatch, hF0, hRest] at hr
      | ok tail =>
        cases hc with
        | head => simp [hF0, Except.isOk, Except.toBool]
        | tail _ h => exact ih tail hRest c h

/-- When the whole chunk loop succeeds, every fetch of every batch
succeeded. -/
theorem runBatches_isOk (F : Fetcher ε τ) : ∀ (bs : List (List (Nat × Int)))
    (r : List τ), runBatches F bs = .ok r →
    ∀ c ∈ bs.flatten, (F c.1 c.2).isOk = true := by
  intro bs
  induction bs with
  | nil => intro r _ c hc; cases hc
  | cons b rest ih =>
    intro r hr c hc
    cases hB : runBatch F b with
    | error e => simp [runBatches, hB] at hr
    | ok pages =>
      cases hRest : runBatches F rest with
      | error e => simp [runBatches, hB, hRest] at hr
      | ok tail =>
        rw [List.flatten_cons, List.mem_append] at hc
        cases hc with
        | inl h => exact runBatch_isOk F b pages hB c h
        | inr h => exact ih tail hRest c h

/-- Evaluation of the chunked pipeline over a fetcher that always succeeds:
page 1 first, then all batched chunk calls in order, then the final slice. -/
theorem chunkedFetchAll_total (F : Fetcher ε τ) (G : Nat → Int → PageResponse τ)
    (hF : ∀ p m, F p m = .ok (G p m)) (limit : Option Int)
    (hfl : ¬ (getGoodPassedLimit limit).2 < 1) :
    chunkedFetchAll F limit = .ok
      (((G 1 (getGoodPassedLimit limit).2).track ++
        (if (getGoodPassedLimit limit).2 < (getGoodPassedLimit limit).1 then
          ((batchPlan ((getGoodPassedLimit limit).1 -
            (getGoodPassedLimit limit).2).toNat).flatten.flatMap
              (fun c => (G c.1 c.2).track))
        else [])).take (getGoodPassedLimit limit).1.toNat) := by
  by_cases h : (getGoodPassedLimit limit).2 < (getGoodPassedLimit limit).1
  · simp [chunkedFetchAll, hfl, hF, runBatches_ok F G hF, h]
  · simp [chunkedFetchAll, hfl, hF, h]

/-- Over the model upstream, a positive requested limit l always yields
exactly the first l tracks of the dataset (or the whole dataset when l
exceeds it): the merged pages form a prefix and the final slice cuts it at
l. -/
theorem chunkedFetchAll_apiFetch_pos (data : List τ) (l : Int) (hl : 1 ≤ l) :
    chunkedFetchAll (apiFetch data) (some l) = .ok (data.take l.toNat) := by
  have hAMI : ((API_MAX_LIMIT : Nat) : Int) = 1000 := rfl
  have hAM : API_MAX_LIMIT = 1000 := rfl
  by_cases hle : l ≤ 1000
  · have hgl : getGoodPassedLimit (some l) = (l, l) := by
      simp only [getGoodPassedLimit]
      rw [if_neg (show ¬ l = 0 by omega), if_neg (show ¬ l > ((API_MAX_LIMIT : Nat) : Int) by
        rw [hAMI]; omega)]
    rw [chunkedFetchAll_total (apiFetch data) (apiPage data) (fun p m => rfl) (some l)
      (by rw [hgl]; omega)]
    rw [hgl]
    simp only []
    rw [if_neg (show ¬ l < l by omega)]
    simp [apiPage, List.take_take]
  · have hgl : getGoodPassedLimit (some l) = (l, ((API_MAX_LIMIT : Nat) : Int)) := by
      simp only [getGoodPassedLimit]
      rw [if_neg (show ¬ l = 0 by omega), if_pos (show l > ((API_MAX_LIMIT : Nat) : Int) by
        rw [hAMI]; omega)]
    rw [chunkedFetchAll_total (apiFetch data) (apiPage data) (fun p m => rfl) (some l)
      (by rw [hgl]; rw [hAMI]; omega)]
    rw [hgl]
    simp only []
    rw [if_pos (show ((API_MAX_LIMIT : Nat) : Int) < l by rw [hAMI]; omega)]
    rw [batchPlan_flatten ((l - ((API_MAX_LIMIT : Nat) : Int)).toNat)
      (by rw [hAMI]; omega)]
    rw [flatMap_map]
    have hslice : ∀ p : Nat, (apiPage data p ((API_MAX_LIMIT : Nat) : Int)).track =
        (data.drop ((p - 1) * API_MAX_LIMIT)).take API_MAX_LIMIT := by
      intro p; simp [apiPage]
    simp only [hslice]
    rw [flatMap_page_slices data _ 2 (by omega)]
    simp only [show (1 - 1) * API_MAX_LIMIT = 0 from rfl, List.drop_zero]
    have hdrop : (2 - 1) * API_MAX_LIMIT = API_MAX_LIMIT := by omega
    rw [hdrop, ← List.take_add, List.take_take]
    have hmin : l.toNat ⊓ (API_MAX_LIMIT +
        ((l - ((API_MAX_LIMIT : Nat) : Int)).toNat + (API_MAX_LIMIT - 1)) / API_MAX_LIMIT *
          API_MAX_LIMIT) = l.toNat := by
      simp only [hAM, hAMI]
      omega
    rw [hmin]

/-- With no limit passed, the pipeline performs a single page-1 call with
limit API_MAX_LIMIT and returns at most API_MAX_LIMIT tracks. -/
theorem chunkedFetchAll_apiFetch_none (data : List τ) :
    chunkedFetchAll (apiFetch data) none = .ok (data.take API_MAX_LIMIT) := by
  have hAMI : ((API_MAX_LIMIT : Nat) : Int) = 1000 := rfl
  have hgl : getGoodPassedLimit none =
      (((API_MAX_LIMIT : Nat) : Int), ((API_MAX_LIMIT : Nat) : Int)) := by
    simp only [getGoodPassedLimit]
    rw [if_neg (show ¬ ((API_MAX_LIMIT : Nat) : Int) > ((API_MAX_LIMIT : Nat) : Int) by omega)]
  rw [chunkedFetchAll_total (apiFetch data) (apiPage data) (fun p m => rfl) none
    (by rw [hgl]; rw [hAMI]; omega)]
  rw [hgl]
  simp only []
  rw [if_neg (show ¬ ((API_MAX_LIMIT : Nat) : Int) < ((API_MAX_LIMIT : Nat) : Int) by omega)]
  simp [apiPage, List.take_take]

/-- A passed limit of 0 is JS-falsy, so goodPassedLimit falls back to
API_MAX_LIMIT and the pipeline behaves exactly as with no limit. -/
theorem chunkedFetchAll_apiFetch_zero (data : List τ) :
    chunkedFetchAll (apiFetch data) (some 0) = .ok (data.take API_MAX_LIMIT) := by
  have hAMI : ((API_MAX_LIMIT : Nat) : Int) = 1000 := rfl
  have hgl : getGoodPassedLimit (some 0) =
      (((API_MAX_LIMIT : Nat) : Int), ((API_MAX_LIMIT : Nat) : Int)) := by
    simp [getGoodPassedLimit]
  rw [chunkedFetchAll_total (apiFetch data) (apiPage data) (fun p m => rfl) (some 0)
    (by rw [hgl]; rw [hAMI]; omega)]
  rw [hgl]
  simp only []
  rw [if_neg (show ¬ ((API_MAX_LIMIT : Nat) : Int) < ((API_MAX_LIMIT : Nat) : Int) by omega)]
  simp [apiPage, List.take_take]

/-- A negative limit fails the zod options schema (limit must be at least 1)
before any fetch runs. -/
theorem chunkedFetchAll_neg (F : Fetcher ε τ) (l : Int) (hneg : l < 0) :
    chunkedFetchAll F (some l) = .error .zod := by
  have hAMI : ((API_MAX_LIMIT : Nat) : Int) = 1000 := rfl
  have hgl : getGoodPassedLimit (some l) = (l, l) := by
    simp only [getGoodPassedLimit]
    rw [if_neg (show ¬ l = 0 by omega),
      if_neg (show ¬ l > ((API_MAX_LIMIT : Nat) : Int) by rw [hAMI]; omega)]
  simp only [chunkedFetchAll, hgl]
  rw [if_pos (show l < 1 by omega)]

/-- With a negative limit no request at all is issued. -/
theorem issuedCalls_neg (l : Int) (hneg : l < 0) : issuedCalls (some l) = [] := by
  have hAMI : ((API_MAX_LIMIT : Nat) : Int) = 1000 := rfl
  have hgl : getGoodPassedLimit (some l) = (l, l) := by
    simp only [getGoodPassedLimit]
    rw [if_neg (show ¬ l = 0 by omega),
      if_neg (show ¬ l > ((API_MAX_LIMIT : Nat) : Int) by rw [hAMI]; omega)]
  simp only [issuedCalls, hgl]
  rw [if_pos (show l < 1 by omega)]

/-- finalLimit never exceeds API_MAX_LIMIT. -/
theorem finalLimit_le (lim : Option Int) :
    (getGoodPassedLimit lim).2 ≤ ((API_MAX_LIMIT : Nat) : Int) := by
  simp only [getGoodPassedLimit]
  split
  · omega
  · omega

/-- When the whole chunked call returns tracks, every one of its issued
requests succeeded: no failure is swallowed or replaced by a default. -/
theorem chunkedFetchAll_ok_isOk (F : Fetcher ε τ) (lim : Option Int) (ts : List τ)
    (h : chunkedFetchAll F lim = .ok ts) :
    ∀ c ∈ issuedCalls lim, (F c.1 c.2).isOk = true := by
  intro c hc
  by_cases hfl : (getGoodPassedLimit lim).2 < 1
  · simp [issuedCalls, hfl] at hc
  · cases hF1 : F 1 (getGoodPassedLimit lim).2 with
    | error e => simp [chunkedFetchAll, hfl, hF1] at h
    | ok response =>
      by_cases hlt : (getGoodPassedLimit lim).2 < (getGoodPassedLimit lim).1
      · cases hB : runBatches F
            (batchPlan ((getGoodPassedLimit lim).1 - (getGoodPassedLimit lim).2).toNat) with
        | error e => simp [chunkedFetchAll, hfl, hF1, hlt, hB] at h
        | ok extra =>
          simp only [issuedCalls, if_neg hfl, if_pos hlt] at hc
          cases hc with
          | head => simp [hF1, Except.isOk, Except.toBool]
          | tail _ hmem => exact runBatches_isOk F _ extra hB c hmem
      · simp only [issuedCalls, if_neg hfl, if_neg hlt] at hc
        cases hc with
        | head => simp [hF1, Except.isOk, Except.toBool]
        | tail _ hmem => cases hmem

/-- With no limit, the loved-tracks loop condition only tests
currentPage < totalPages; since the loop body never changes either value, the
loop never exits, whatever fuel it is given: the source while loop diverges. -/
theorem getUserLovedTracksLoop_stuck (data : List τ) (finalLimit : Int)
    (currentPage totalPages : Nat) (hcp : currentPage < totalPages) :
    ∀ (fuel : Nat) (tracks : List τ),
    getUserLovedTracksLoop (apiFetch data) none finalLimit currentPage totalPages
      tracks fuel = none := by
  intro fuel
  induction fuel with
  | zero => intro tracks; rfl
  | succ fuel ih =>
    intro tracks
    have hcond : lovedLoopCond none currentPage totalPages tracks = true := by
      simp [lovedLoopCond, hcp]
    simp only [getUserLovedTracksLoop, hcond, if_true, apiFetch]
    exact ih _

/-- Calling getUserLovedTracks with no limit on a dataset spanning more than
one page never returns, for any number of loop iterations. -/
theorem getUserLovedTracksRun_none_diverges (data : List τ)
    (h : API_MAX_LIMIT < data.length) :
    ∀ fuel : Nat, getUserLovedTracksRun (apiFetch data) none fuel = none := by
  intro fuel
  have hAM : API_MAX_LIMIT = 1000 := rfl
  have hpages : (apiPage data 1 ((API_MAX_LIMIT : Nat) : Int)).attr.page <
      (apiPage data 1 ((API_MAX_LIMIT : Nat) : Int)).attr.totalPages := by
    simp only [apiPage, Int.toNat_natCast]
    simp only [hAM] at h ⊢
    omega
  simp only [getUserLovedTracksRun, Option.getD, apiFetch]
  rw [if_neg (show ¬ ((API_MAX_LIMIT : Nat) : Int) < 1 by
    rw [show ((API_MAX_LIMIT : Nat) : Int) = 1000 from rfl]; omega)]
  exact getUserLovedTracksLoop_stuck data _ _ _ hpages fuel _

/-- A passed limit of 0 reaches the first fetch as limit 0 (JS ?? only
defaults null/undefined), so the zod options schema rejects it before any
network call. -/
theorem getUserLovedTracksRun_zero (F : Fetcher ε τ) (fuel : Nat) :
    getUserLovedTracksRun F (some 0) fuel = some (.error .zod) := by
  simp only [getUserLovedTracksRun, Option.getD]
  rw [if_pos (show (0 : Int) < 1 by omega)]

/-- A negative limit reaches the first fetch unchanged and the zod options
schema rejects it before any network call. -/
theorem getUserLovedTracksRun_neg (F : Fetcher ε τ) (l : Int) (hl : l < 0) (fuel : Nat) :
    getUserLovedTracksRun F (some l) fuel = some (.error .zod) := by
  simp only [getUserLovedTracksRun, Option.getD]
  rw [if_pos (show l < 1 by omega)]

/-! ### Claim theorems -/

/-- C1: the spec says an absent limit returns all trueTotal tracks, and the
source header doc says the same, but goodPassedLimit turns an absent limit
into API_MAX_LIMIT, so on a 1500-track upstream the call returns only the
1000 tracks of page 1 instead of all 1500: the code contradicts its own
documentation. -/
theorem getAllUserRecentTracks_absent_limit_stops_at_1000 :
    getAllUserRecentTracks (apiFetch (List.range 1500)) none =
      .ok ((List.range 1500).take 1000) ∧
    ((List.range 1500).take 1000).length = 1000 ∧
    (List.range 1500).length = 1500 := by
  refine ⟨?_, by simp, by simp⟩
  simp only [getAllUserRecentTracks]
  exact chunkedFetchAll_apiFetch_none (List.range 1500)

/-- C2 counterexample: requestedLimit 0 is at most the true total 3, yet the
returned sequence has 3 items, not 0, because a limit of 0 is JS-falsy and is
replaced by API_MAX_LIMIT. -/
theorem getUserRecentTracks_limit_zero_not_empty :
    getUserRecentTracks (apiFetch (List.range 3)) (some 0) = .ok [0, 1, 2] ∧
    (0 : Nat) ≤ (List.range 3).length ∧ ([0, 1, 2] : List Nat).length ≠ 0 := by
  refine ⟨?_, by simp, by simp⟩
  simp only [getUserRecentTracks]
  rw [chunkedFetchAll_apiFetch_zero]
  rfl

/-- C2 amended: for every requested limit l with 1 ≤ l ≤ trueTotal, each
fetch-all operation returns exactly the first l upstream tracks, in
page-ascending order (the result is literally the l-prefix of the dataset). -/
theorem fetchAll_limit_le_total_exact (data : List τ) (l : Nat) (h1 : 1 ≤ l)
    (h2 : l ≤ data.length) :
    getUserRecentTracks (apiFetch data) (some (l : Int)) = .ok (data.take l) ∧
    getUserTopTracks (apiFetch data) (some (l : Int)) = .ok (data.take l) ∧
    getAllUserRecentTracks (apiFetch data) (some (l : Int)) = .ok (data.take l) ∧
    (data.take l).length = l := by
  have hpos : chunkedFetchAll (apiFetch data) (some (l : Int)) = .ok (data.take l) := by
    have h := chunkedFetchAll_apiFetch_pos data (l : Int) (by omega)
    rwa [Int.toNat_natCast] at h
  exact ⟨hpos, hpos, hpos, by rw [List.length_take]; omega⟩

theorem fetchAll_limit_le_total_exact_witness :
    getUserRecentTracks (apiFetch (List.range 5)) (some ((3 : Nat) : Int)) =
      .ok ((List.range 5).take 3) ∧
    getUserTopTracks (apiFetch (List.range 5)) (some ((3 : Nat) : Int)) =
      .ok ((List.range 5).take 3) ∧
    getAllUserRecentTracks (apiFetch (List.range 5)) (some ((3 : Nat) : Int)) =
      .ok ((List.range 5).take 3) ∧
    ((List.range 5).take 3).length = 3 :=
  fetchAll_limit_le_total_exact (List.range 5) 3 (by decide) (by decide)

/-- C3: the pages of all requests issued by one top-level chunked fetch-all
call form exactly the contiguous run 1, 2, ..., n: strictly increasing, no
page repeated, none skipped. The configuration precondition of the claim,
CHUNK_SIZE divisible by API_MAX_LIMIT, holds for the source constants and is
the first conjunct. -/
theorem issuedCalls_pages_contiguous :
    CHUNK_SIZE % API_MAX_LIMIT = 0 ∧
    ∀ lim : Option Int, (issuedCalls lim).map Prod.fst =
      List.range' 1 (issuedCalls lim).length := by
  refine ⟨rfl, fun lim => ?_⟩
  by_cases hfl : (getGoodPassedLimit lim).2 < 1
  · simp [issuedCalls, hfl]
  · by_cases hlt : (getGoodPassedLimit lim).2 < (getGoodPassedLimit lim).1
    · have hneed : 1 ≤ ((getGoodPassedLimit lim).1 - (getGoodPassedLimit lim).2).toNat := by
        omega
      simp only [issuedCalls, if_neg hfl, if_pos hlt]
      rw [batchPlan_flatten _ hneed]
      simp only [List.map_cons, List.map_map, List.length_cons, List.length_map,
        List.length_range']
      have hcomp : (Prod.fst ∘ fun p : Nat => (p, ((API_MAX_LIMIT : Nat) : Int))) = id := by
        funext p; rfl
      rw [hcomp, List.map_id, List.range'_succ]
    · simp only [issuedCalls, if_neg hfl, if_neg hlt]
      rfl

/-- C4: when any single fetch among the issued calls fails, every fetch-all
operation fails with an error; no partial merged sequence reaches the caller
and no failure is swallowed or defaulted. -/
theorem fetchAll_batch_failure_aborts (F : Fetcher ε τ) (lim : Option Int)
    (h : ∃ c ∈ issuedCalls lim, (F c.1 c.2).isOk = false) :
    ∃ e, getUserRecentTracks F lim = .error e ∧ getUserTopTracks F lim = .error e ∧
      getAllUserRecentTracks F lim = .error e := by
  obtain ⟨c, hc, hbad⟩ := h
  cases hres : chunkedFetchAll F lim with
  | ok ts =>
    have hok := chunkedFetchAll_ok_isOk F lim ts hres c hc
    rw [hbad] at hok
    simp at hok
  | error e =>
    exact ⟨e, by simp only [getUserRecentTracks, hres],
      by simp only [getUserTopTracks, hres],
      by simp only [getAllUserRecentTracks, hres]⟩

/-- A fetcher whose page-1 call succeeds with an empty page and whose every
other call fails: exercises the failure path of a chunked call. -/
def failingFetcher : Fetcher Unit Nat := fun p _ =>
  if p = 1 then
    .ok { track := [], attr := { total := 0, totalPages := 0, page := 1, perPage := 1000 } }
  else .error ()

theorem fetchAll_batch_failure_aborts_witness :
    ∃ e, getUserRecentTracks failingFetcher (some 1200) = .error e ∧
      getUserTopTracks failingFetcher (some 1200) = .error e ∧
      getAllUserRecentTracks failingFetcher (some 1200) = .error e :=
  fetchAll_batch_failure_aborts failingFetcher (some 1200) (by decide)

/-- C5 counterexample: a requested limit of 0 does not short-circuit: the
chunked operations treat it as absent, issue a page-1 call with limit 1000 and
return a non-empty sequence on a non-empty upstream. -/
theorem getUserTopTracks_limit_zero_issues_call :
    getUserTopTracks (apiFetch (List.range 5)) (some 0) = .ok [0, 1, 2, 3, 4] ∧
    issuedCalls (some 0) = [(1, 1000)] := by
  constructor
  · simp only [getUserTopTracks]
    rw [chunkedFetchAll_apiFetch_zero]
    rfl
  · decide

/-- C5 amended: a limit of 0 is treated as absent by the chunked operations
(one page-1 call with limit API_MAX_LIMIT, up to API_MAX_LIMIT items
returned), while a negative limit, and a limit of 0 for getUserLovedTracks,
fail the zod options schema before any network call, returning an error
rather than an empty sequence. -/
theorem limit_zero_and_negative_behavior (data : List τ) (l : Int) (hneg : l < 0)
    (fuel : Nat) :
    getUserRecentTracks (apiFetch data) (some 0) = .ok (data.take API_MAX_LIMIT) ∧
    issuedCalls (some 0) = [(1, ((API_MAX_LIMIT : Nat) : Int))] ∧
    getUserRecentTracks (apiFetch data) (some l) = .error .zod ∧
    issuedCalls (some l) = [] ∧
    getUserLovedTracksRun (apiFetch data) (some 0) fuel = some (.error .zod) := by
  refine ⟨?_, by decide, ?_, issuedCalls_neg l hneg, getUserLovedTracksRun_zero _ fuel⟩
  · simp only [getUserRecentTracks]
    exact chunkedFetchAll_apiFetch_zero data
  · simp only [getUserRecentTracks]
    exact chunkedFetchAll_neg (apiFetch data) l hneg

theorem limit_zero_and_negative_behavior_witness :
    getUserRecentTracks (apiFetch ([] : List Nat)) (some 0) =
      .ok (([] : List Nat).take API_MAX_LIMIT) ∧
    issuedCalls (some 0) = [(1, ((API_MAX_LIMIT : Nat) : Int))] ∧
    getUserRecentTracks (apiFetch ([] : List Nat)) (some (-1)) = .error .zod ∧
    issuedCalls (some (-1)) = [] ∧
    getUserLovedTracksRun (apiFetch ([] : List Nat)) (some 0) 0 = some (.error .zod) :=
  limit_zero_and_negative_behavior [] (-1) (by decide) 0

/-- C6 counterexample: with an empty track list the probe does not return an
absent value: line 385 reads a property of track[0], which is undefined, so
the call throws a TypeError instead of returning null. -/
theorem getCurrentlyPlayingTrack_empty_throws :
    getCurrentlyPlayingTrack (fun _ _ =>
      (.ok { track := [], attr := { total := 0, totalPages := 0, page := 1, perPage := 1 } } :
        Except Unit (PageResponse RecentTrack))) = .error .typeError := rfl

/-- C6 amended: the probe issues the single page-1 limit-1 request; when the
returned track list is non-empty, the first track is returned exactly when
its nowplaying marker is truthy and null is returned otherwise (no throw);
only the empty-list case throws. -/
theorem getCurrentlyPlayingTrack_nonempty (F : Fetcher ε RecentTrack)
    (page : PageResponse RecentTrack) (t : RecentTrack) (ts : List RecentTrack)
    (hF : F 1 1 = .ok page) (ht : page.track = t :: ts) :
    currentlyPlayingCall = (1, 1) ∧
    getCurrentlyPlayingTrack F = .ok (if t.nowplaying.getD false then some t else none) := by
  refine ⟨rfl, ?_⟩
  simp only [getCurrentlyPlayingTrack, currentlyPlayingCall, hF, ht]

/-- A one-track page whose track carries a truthy nowplaying marker. -/
def nowPlayingPage : PageResponse RecentTrack :=
  { track := [{ name := "song", url := "u", nowplaying := some true }],
    attr := { total := 1, totalPages := 1, page := 1, perPage := 1 } }

theorem getCurrentlyPlayingTrack_nonempty_witness :
    currentlyPlayingCall = (1, 1) ∧
    getCurrentlyPlayingTrack (fun _ _ =>
      (.ok nowPlayingPage : Except Unit (PageResponse RecentTrack))) =
      .ok (if (RecentTrack.mk "song" "u" (some true)).nowplaying.getD false then
        some (RecentTrack.mk "song" "u" (some true)) else none) :=
  getCurrentlyPlayingTrack_nonempty (fun _ _ => .ok nowPlayingPage) nowPlayingPage
    (RecentTrack.mk "song" "u" (some true)) [] rfl rfl

/-- C7: requesting 1200 items issues exactly two calls, page 1 with limit
1000 and page 2 with limit 1000 in a single batch of one call, no page
repeated; on a 1200-track upstream page 1 yields 1000 items, page 2 the
remaining 200, and the result is the full ordered dataset. -/
theorem plan_1200_two_calls :
    issuedCalls (some 1200) = [(1, 1000), (2, 1000)] ∧
    batchPlan 200 = [[(2, 1000)]] ∧
    getUserRecentTracks (apiFetch (List.range 1200)) (some 1200) = .ok (List.range 1200) ∧
    ((List.range 1200).take 1000).length = 1000 ∧
    (((List.range 1200).drop 1000).take 1000).length = 200 := by
  refine ⟨by decide, by decide, ?_, by simp, by simp⟩
  simp only [getUserRecentTracks]
  have h := chunkedFetchAll_apiFetch_pos (List.range 1200) 1200 (by omega)
  rw [h]
  simp [List.take_range]

/-- C8 counterexample: getUserLovedTracks passes the raw caller limit to its
first request (only null/undefined are defaulted), so a limit of 2000 reaches
the HTTP call uncapped, above API_MAX_LIMIT, and is not
min(effectiveTarget, perRequestCap). -/
theorem lovedFirstCall_uncapped :
    lovedFirstCall (some 2000) = some (1, 2000) ∧
    ¬ ((2000 : Int) ≤ ((API_MAX_LIMIT : Nat) : Int)) := ⟨by decide, by decide⟩

/-- C8 amended: for the chunked operations the first issued call is page 1
with limit finalLimit = min(goodPassedLimit, API_MAX_LIMIT), never above the
cap; getUserLovedTracks instead passes any positive caller limit through to
its first call uncapped. -/
theorem first_call_limit_behavior (lim : Option Int) (c : Nat × Int)
    (h : (issuedCalls lim).head? = some c) (l : Int) (hl : 1 ≤ l) :
    c = (1, (getGoodPassedLimit lim).2) ∧ c.2 ≤ ((API_MAX_LIMIT : Nat) : Int) ∧
    lovedFirstCall (some l) = some (1, l) := by
  have hc : c = (1, (getGoodPassedLimit lim).2) := by
    by_cases hfl : (getGoodPassedLimit lim).2 < 1
    · simp [issuedCalls, hfl] at h
    · simp only [issuedCalls, if_neg hfl, List.head?_cons] at h
      exact (Option.some.inj h).symm
  refine ⟨hc, ?_, ?_⟩
  · rw [hc]
    exact finalLimit_le lim
  · simp only [lovedFirstCall, Option.getD]
    rw [if_neg (show ¬ l < 1 by omega)]

theorem first_call_limit_behavior_witness :
    ((1 : Nat), (1000 : Int)) = (1, (getGoodPassedLimit (some 1200)).2) ∧
    ((1 : Nat), (1000 : Int)).2 ≤ ((API_MAX_LIMIT : Nat) : Int) ∧
    lovedFirstCall (some 2000) = some (1, 2000) :=
  first_call_limit_behavior (some 1200) (1, 1000) (by decide) 2000 (by decide)

/-- C10: every request a chunked fetch-all call issues, the first call and
every batched chunk call alike, carries a limit of at most API_MAX_LIMIT,
whatever limit the caller asked for. -/
theorem issuedCalls_limit_le_cap (lim : Option Int) :
    ∀ c ∈ issuedCalls lim, c.2 ≤ ((API_MAX_LIMIT : Nat) : Int) := by
  intro c hc
  by_cases hfl : (getGoodPassedLimit lim).2 < 1
  · simp [issuedCalls, hfl] at hc
  · by_cases hlt : (getGoodPassedLimit lim).2 < (getGoodPassedLimit lim).1
    · have hneed : 1 ≤ ((getGoodPassedLimit lim).1 - (getGoodPassedLimit lim).2).toNat := by
        omega
      simp only [issuedCalls, if_neg hfl, if_pos hlt] at hc
      cases hc with
      | head => exact finalLimit_le lim
      | tail _ hmem =>
        rw [batchPlan_flatten _ hneed] at hmem
        obtain ⟨p, _, hp⟩ := List.mem_map.mp hmem
        rw [← hp]
    · simp only [issuedCalls, if_neg hfl, if_neg hlt] at hc
      cases hc with
      | head => exact finalLimit_le lim
      | tail _ hmem => cases hmem

theorem issuedCalls_limit_le_cap_witness :
    ((1 : Nat), (1000 : Int)) ∈ issuedCalls (some 1200) ∧
    ((1 : Nat), (1000 : Int)).2 ≤ ((API_MAX_LIMIT : Nat) : Int) :=
  ⟨by decide, issuedCalls_limit_le_cap (some 1200) (1, 1000) (by decide)⟩

theorem getUserLovedTracksRun_none_diverges_witness :
    API_MAX_LIMIT < (List.range 1001).length ∧
    getUserLovedTracksRun (apiFetch (List.range 1001)) none 3 = none :=
  ⟨by rw [List.length_range]; decide,
    getUserLovedTracksRun_none_diverges (List.range 1001) (by rw [List.length_range]; decide) 3⟩
